import Mathlib

/-!
Verification of the go-issue-summoner annotation-scanning core.

The definitions below are a shallow embedding of the repository's Go code:

* pkg/lexer (src/unnamed/part_000): the `Comment` result record and its
  `Validate` method.
* pkg/issue/comment.go: the comment-syntax registry (`CommentSymbols`,
  `CommentPrefixes`), the per-line classifier (`SetLineTypeAndPrefix`) and
  the annotation extractor (`ExtractCommentContent`, `extractAfterPrefix`,
  `extractBeforeSuffix`).
* pkg/tag/walk.go: the directory-walk callback (`Walk`) and the ignore-path
  filter (`validatePath`).

Go byte slices are `List UInt8`, Go strings are Lean `String`s, the mutable
receiver of the classifier is threaded explicitly, and the standard-library
collaborators (`strings.Fields`, `strings.HasPrefix`, `fs.WalkDir`, ...) are
given executable Lean counterparts.
-/

/-- Go's unicode.IsSpace on the Latin-1 range, the characters that the
strings package treats as white space when splitting fields or trimming. -/
def goIsSpace (c : Char) : Bool :=
  c = ' ' || c = '\t' || c = '\n' || c = '\x0B' || c = '\x0C' || c = '\r' ||
  c = '\u0085' || c = '\u00A0'

/-- Go strings.TrimLeftFunc(line, unicode.IsSpace): drop leading white space. -/
def trimLeftSpace (s : String) : String :=
  ⟨s.data.dropWhile goIsSpace⟩

/-- Go strings.HasPrefix(s, pre). -/
def hasPrefix (s pre : String) : Bool :=
  pre.data.isPrefixOf s.data

/-- Go strings.HasSuffix(s, suf). -/
def hasSuffix (s suf : String) : Bool :=
  suf.data.isSuffixOf s.data

/-- Whether `needle` occurs as a contiguous run inside `hay`. -/
def listIsInfixOf : List Char → List Char → Bool
  | needle, [] => needle.isEmpty
  | needle, c :: rest => needle.isPrefixOf (c :: rest) || listIsInfixOf needle rest

/-- Go strings.Contains(s, sub). -/
def containsSubstring (s sub : String) : Bool :=
  listIsInfixOf sub.data s.data

/-- Accumulating splitter behind `goFields`: `acc` holds the reversed
characters of the field being read. -/
def fieldsAux : List Char → List Char → List (List Char)
  | [], acc => if acc.isEmpty then [] else [acc.reverse]
  | c :: rest, acc =>
    if goIsSpace c then
      if acc.isEmpty then fieldsAux rest [] else acc.reverse :: fieldsAux rest []
    else
      fieldsAux rest (c :: acc)

/-- Go strings.Fields(s): the maximal runs of non-white-space characters. -/
def goFields (s : String) : List String :=
  (fieldsAux s.data []).map (fun l => ⟨l⟩)

/-- Go strings.Join(l, " "). -/
def joinSpace (l : List String) : String :=
  String.intercalate " " l

namespace lexer

/-- The lexer.Comment record of src/unnamed/part_000; Go byte slices are
lists of bytes. -/
structure Comment where
  Title          : List UInt8 := []
  Description    : List UInt8 := []
  TokenIndex     : Int := 0
  Source         : List UInt8 := []
  SourceFileName : String := ""
deriving DecidableEq, Repr

/-- Comment.Validate of src/unnamed/part_000: len(c.Source) > 0. -/
def Comment.Validate (c : Comment) : Bool :=
  decide (0 < c.Source.length)

end lexer

namespace issue

def fileExtAsm        : String := ".asm"
def fileExtBash       : String := ".sh"
def fileExtCpp        : String := ".cpp"
def fileExtC          : String := ".c"
def fileExtCH         : String := ".h"
def fileExtCS         : String := ".cs"
def fileExtGo         : String := ".go"
def fileExtHaskell    : String := ".hs"
def fileExtHtml       : String := ".html"
def fileExtJai        : String := ".jai"
def fileExtJava       : String := ".java"
def fileExtJavaScript : String := ".js"
def fileExtJsx        : String := ".jsx"
def fileExtKotlin     : String := ".kt"
def fileExtLisp       : String := ".lisp"
def fileExtLua        : String := ".lua"
def fileExtObjC       : String := ".m"
def fileExtOcaml      : String := ".ml"
def fileExtPhp        : String := ".php"
def fileExtPython     : String := ".py"
def fileExtRuby       : String := ".rb"
def fileExtRust       : String := ".rs"
def fileExtMarkdown   : String := ".md"
def fileExtR          : String := ".R"
def fileExtScala      : String := ".scala"
def fileExtSwift      : String := ".swift"
def fileExtTypeScript : String := ".ts"
def fileExtTsx        : String := ".tsx"
def fileExtVim        : String := ".vim"
def fileExtZig        : String := ".zig"

def LINE_TYPE_SRC_CODE    : String := "src-code"
def LINE_TYPE_SINGLE      : String := "single"
def LINE_TYPE_MULTI_START : String := "multi-start"
def LINE_TYPE_MULTI_END   : String := "multi-end"

/-- The issue.Comment classifier state of pkg/issue/comment.go. Fields left
out of a Go composite literal take that type's zero value, mirrored here by
the defaults. -/
structure Comment where
  SingleLinePrefix     : List String := []
  MultiLineStartPrefix : List String := []
  MultiLineEndPrefix   : List String := []
  CurrentPrefix        : String := ""
  CurrentLineType      : String := ""
deriving DecidableEq, Repr

/-- The CommentSymbols map of pkg/issue/comment.go, as the lookup function of
a fixed four-entry map; a Go lookup of an absent key yields the zero value. -/
def CommentSymbols (key : String) : Comment :=
  if key = fileExtC then
    { SingleLinePrefix := ["//"],
      MultiLineStartPrefix := ["/*"],
      MultiLineEndPrefix := ["*/"] }
  else if key = fileExtPython then
    { SingleLinePrefix := ["#"],
      MultiLineStartPrefix := ["\"\"\"", "'''"],
      MultiLineEndPrefix := ["\"\"\"", "'''"] }
  else if key = fileExtMarkdown then
    { MultiLineStartPrefix := ["<!--"],
      MultiLineEndPrefix := ["-->"] }
  else if key = "default" then
    { SingleLinePrefix := ["#"],
      MultiLineStartPrefix := ["#"],
      MultiLineEndPrefix := ["#"] }
  else
    {}

/-- CommentPrefixes of pkg/issue/comment.go: the switch over the file
extension. -/
def CommentPrefixes (ext : String) : Comment :=
  if ext = fileExtC ∨ ext = fileExtCpp ∨ ext = fileExtJava ∨ ext = fileExtJavaScript ∨
     ext = fileExtJsx ∨ ext = fileExtTypeScript ∨ ext = fileExtTsx ∨ ext = fileExtCS ∨
     ext = fileExtGo ∨ ext = fileExtPhp ∨ ext = fileExtSwift ∨ ext = fileExtKotlin ∨
     ext = fileExtRust ∨ ext = fileExtObjC ∨ ext = fileExtScala then
    CommentSymbols fileExtC
  else if ext = fileExtPython then
    CommentSymbols fileExtPython
  else if ext = fileExtMarkdown then
    CommentSymbols fileExtMarkdown
  else
    CommentSymbols "default"

/-- The field loop of extractAfterPrefix (pkg/issue/comment.go lines 135-143).
The Go loop keeps an index `start` pointing right after the most recent field
equal to `pre`; here `fallback` carries the corresponding list suffix
fields[start:]. -/
def extractLoop ( annotation pre : String) : List String → List String → String × Bool
  | [], fallback => (joinSpace fallback, false)
  | s :: rest, fallback =>
    let fallback' := if s = pre then rest else fallback
    if s = annotation then (joinSpace rest, true)
    else extractLoop annotation pre rest fallback'

/-- extractAfterPrefix of pkg/issue/comment.go. -/
def extractAfterPrefix (fields : List String) ( annotation pre : String) : String × Bool :=
  if fields.isEmpty then ("", false)
  else extractLoop annotation pre fields fields

/-- extractBeforeSuffix of pkg/issue/comment.go: drop a final field equal to
the active end delimiter, then search as extractAfterPrefix. -/
def extractBeforeSuffix (fields : List String) ( annotation pre : String) : String × Bool :=
  if fields.isEmpty then ("", false)
  else
    let fields' := if fields.getLast? = some pre then fields.dropLast else fields
    extractAfterPrefix fields' annotation pre

/-- Comment.SetLineTypeAndPrefix of pkg/issue/comment.go; the mutated
receiver is returned. -/
def SetLineTypeAndPrefix (c : Comment) (line : String) : Comment :=
  let trimmedLine := trimLeftSpace line
  if c.CurrentPrefix ≠ "" ∧
      (hasPrefix trimmedLine c.CurrentPrefix ∨ hasSuffix trimmedLine c.CurrentPrefix) then
    c
  else
    match c.SingleLinePrefix.find? (fun s => hasPrefix trimmedLine s) with
    | some s => { c with CurrentLineType := LINE_TYPE_SINGLE, CurrentPrefix := s }
    | none =>
      match (c.MultiLineStartPrefix.zip c.MultiLineEndPrefix).find?
          (fun p => hasPrefix trimmedLine p.1 || hasSuffix trimmedLine p.2) with
      | some p =>
        if hasPrefix trimmedLine p.1 then
          { c with CurrentLineType := LINE_TYPE_MULTI_START, CurrentPrefix := p.1 }
        else
          { c with CurrentLineType := LINE_TYPE_MULTI_END, CurrentPrefix := p.2 }
      | none => { c with CurrentLineType := LINE_TYPE_SRC_CODE, CurrentPrefix := "" }

/-- Comment.ExtractCommentContent of pkg/issue/comment.go; returns the
updated classifier state together with (content, found). -/
def ExtractCommentContent (c : Comment) (line : String) ( annotation : String) :
    Comment × String × Bool :=
  let fields := goFields line
  let c' := SetLineTypeAndPrefix c (joinSpace fields)
  if c'.CurrentLineType = LINE_TYPE_MULTI_END then
    (c', extractBeforeSuffix fields annotation c'.CurrentPrefix)
  else
    (c', extractAfterPrefix fields annotation c'.CurrentPrefix)

end issue

namespace tag

/-- Errors are opaque to Walk; they are modelled as strings. -/
abbrev Error := String

/-- Modelled from the spec: the Tag record of pkg/tag is not under src/ (only
walk.go, which aggregates values of the type, is); the spec lists its fields
as annotation token, title, description, source file and line index. -/
structure Tag where
  annotationToken : String := ""
  title           : String := ""
  description     : String := ""
  sourceFile      : String := ""
  lineIndex       : Nat := 0
deriving DecidableEq, Repr

/-- Modelled from the spec: the GitIgnorePattern type of pkg/tag is not under
src/; Walk consults only its Match method, so a pattern is modelled as its
match predicate over a path string. -/
structure GitIgnorePattern where
  Match : String → Bool

/-- validatePath of pkg/tag/walk.go: false as soon as one ignore pattern
matches the path, true when none does. -/
def validatePath (path : String) (ignorePatterns : List GitIgnorePattern) : Bool :=
  ignorePatterns.all (fun v => !(v.Match path))

/-- The part of fs.DirEntry that the Walk callback reads: Name and IsDir. -/
structure DirEntry where
  name  : String
  isDir : Bool
deriving DecidableEq, Repr

/-- The value a fs.WalkDirFunc returns: nil, filepath.SkipDir, or an error. -/
inductive WalkAction where
  | ok
  | skipDir
  | fail (e : Error)
deriving DecidableEq, Repr

/-- State threaded through the walk: the tags slice the callback inside Walk
appends to, plus an instrumentation log of every path handed to
FileOperator.Open, used to state which files the walk opens. -/
structure WalkState where
  tags   : List Tag := []
  opened : List String := []
deriving DecidableEq, Repr

/-- Per-path results of the collaborators the Walk callback consults: whether
FileOperator.Open fails, whether DirEntry.Info fails, what
TagManager.ScanForTags returns, and whether File.Close fails. Modelled from
the WalkTagManager and WalkFileOperator interfaces of pkg/tag/walk.go. -/
structure WalkEnv where
  openErr  : String → Option Error := fun _ => none
  infoErr  : String → Option Error := fun _ => none
  scanRes  : String → Except Error (List Tag) := fun _ => .ok []
  closeErr : String → Option Error := fun _ => none

/-- The fs.WalkDirFunc closure inside Walk (pkg/tag/walk.go lines 29-67).
The captured tags slice is part of the state; calling Open appends the path
to the opened log. -/
def walkCallback (env : WalkEnv) (ignorePatterns : List GitIgnorePattern)
    (st : WalkState) (path : String) (d : DirEntry) (wErr : Option Error) :
    WalkState × WalkAction :=
  let isValidPath := validatePath path ignorePatterns
  if d.isDir then
    let isGitDir := containsSubstring d.name ".git"
    if isGitDir || !isValidPath then (st, .skipDir)
    else (st, .ok)
  else if !isValidPath then (st, .ok)
  else
    let st := { st with opened := st.opened ++ [path] }
    match env.openErr path with
    | some e => (st, .fail e)
    | none =>
      match env.infoErr path with
      | some e => (st, .fail e)
      | none =>
        match env.scanRes path with
        | .error e => (st, .fail e)
        | .ok foundTags =>
          let st := { st with tags := st.tags ++ foundTags }
          match env.closeErr path with
          | some e => (st, .fail e)
          | none =>
            match wErr with
            | some e => (st, .fail e)
            | none => (st, .ok)

/-- Modelled from the spec: the concrete WalkFileOperator is not under src/;
its WalkDir walks an abstract file tree, modelled in memory. -/
inductive FSEntry where
  | file (name : String)
  | dir (name : String) (entries : List FSEntry)
deriving Repr

def FSEntry.entryName : FSEntry → String
  | .file n => n
  | .dir n _ => n

/-- Termination signal of the recursive walkDir of path/filepath: SkipDir or
an error; none stands for a nil return. -/
inductive WalkErr where
  | skipDir
  | fail (e : Error)
deriving DecidableEq, Repr

/-- Shape of the walk callback as the driver sees it. -/
abbrev WalkFn := WalkState → String → DirEntry → Option Error → WalkState × WalkAction

/-- Path of a child entry: filepath.Join of the directory path and the name. -/
def childPath (dirPath name : String) : String :=
  dirPath ++ "/" ++ name

mutual

/-- Modelled from the spec: one call of path/filepath's recursive walkDir on
the entry at `path`. A file returns whatever the callback said; a directory
returning SkipDir is pruned with a nil result; an ok directory descends into
its entries. -/
def walkDirEntry (fn : WalkFn) (st : WalkState) (path : String) :
    FSEntry → WalkState × Option WalkErr
  | .file n =>
    match fn st path ⟨n, false⟩ none with
    | (st', .ok) => (st', none)
    | (st', .skipDir) => (st', some .skipDir)
    | (st', .fail e) => (st', some (.fail e))
  | .dir n entries =>
    match fn st path ⟨n, true⟩ none with
    | (st', .skipDir) => (st', none)
    | (st', .fail e) => (st', some (.fail e))
    | (st', .ok) => walkDirList fn st' path entries

/-- Modelled from the spec: the loop of walkDir over a directory's entries; a
child returning SkipDir stops the loop with a nil result, an error aborts. -/
def walkDirList (fn : WalkFn) (st : WalkState) (dirPath : String) :
    List FSEntry → WalkState × Option WalkErr
  | [] => (st, none)
  | e :: rest =>
    match walkDirEntry fn st (childPath dirPath e.entryName) e with
    | (st', some .skipDir) => (st', none)
    | (st', some (.fail err)) => (st', some (.fail err))
    | (st', none) => walkDirList fn st' dirPath rest

end

/-- WalkParams of pkg/tag/walk.go, the collaborators replaced by their
models: the file tree rooted at Root and the per-path collaborator results. -/
structure WalkParams where
  root           : String
  rootEntry      : FSEntry
  env            : WalkEnv
  ignorePatterns : List GitIgnorePattern

/-- Walk of pkg/tag/walk.go over the modelled WalkDir. Line 69 of walk.go
returns the tags slice as it stands together with WalkDir's error; a top
level SkipDir maps to a nil error as in path/filepath. The opened log is
passed through as instrumentation. -/
def Walk (arg : WalkParams) : List Tag × List String × Option Error :=
  let fn : WalkFn := walkCallback arg.env arg.ignorePatterns
  match walkDirEntry fn {} arg.root arg.rootEntry with
  | (st, some (.fail e)) => (st.tags, st.opened, some e)
  | (st, _) => (st.tags, st.opened, none)

/-- Stepwise run of walkDirList that demands a nil return from every entry;
gives the state after the list, or none when some entry returned SkipDir or
an error. -/
def runListOk (fn : WalkFn) (dirPath : String) : WalkState → List FSEntry → Option WalkState
  | st, [] => some st
  | st, e :: rest =>
    match walkDirEntry fn st (childPath dirPath e.entryName) e with
    | (st', none) => runListOk fn dirPath st' rest
    | _ => none

end tag

/-- The extensions that the switch of CommentPrefixes maps explicitly: the
C-style family, Python and Markdown. -/
def mappedExtensions : List String :=
  [".c", ".cpp", ".java", ".js", ".jsx", ".ts", ".tsx", ".cs", ".go", ".php",
   ".swift", ".kt", ".rs", ".m", ".scala", ".py", ".md"]

/-- Walk scenario for claim C2: file r/a scans to one tag, the open of file
r/b fails, file r/c comes after the failure. -/
def c2Env : tag.WalkEnv :=
  { scanRes := fun p => if p = "r/a" then .ok [{ title := "refactor" }] else .ok [],
    openErr := fun p => if p = "r/b" then some "boom" else none }

/-- File tree of the C2 scenario. -/
def c2Tree : tag.FSEntry :=
  .dir "r" [.file "a", .file "b", .file "c"]

/-- Ignore patterns of the C7 witness: one pattern matching exactly the path
proj/node_modules. -/
def c7Patterns : List tag.GitIgnorePattern :=
  [⟨fun p => p = "proj/node_modules"⟩]

/-- Prefix test used for claim C5: a list starting with "/*" does not start
with "//". -/
theorem isPrefixOf_slash_star_not_slash_slash {l : List Char}
    (h : ['/', '*'].isPrefixOf l = true) : ['/', '/'].isPrefixOf l = false := by
  cases l with
  | nil => simp [List.isPrefixOf] at h
  | cons a l1 =>
    cases l1 with
    | nil => simp [List.isPrefixOf] at h
    | cons b l2 =>
      simp only [List.isPrefixOf, Bool.and_eq_true, beq_iff_eq] at h
      obtain ⟨h1, h2⟩ := h
      obtain ⟨h2, -⟩ := h2
      subst h1
      subst h2
      simp [List.isPrefixOf]

/-- Loop lemma for claim C10: when the annotation token occurs in no field,
the loop of extractAfterPrefix reports found = false. -/
theorem extractLoop_not_found ( annotation pre : String) :
    ∀ (fields fallback : List String), annotation ∉ fields →
      (issue.extractLoop annotation pre fields fallback).2 = false := by
  intro fields
  induction fields with
  | nil => intro fallback _; simp [issue.extractLoop]
  | cons s rest ih =>
    intro fallback h
    simp only [List.mem_cons, not_or] at h
    simp only [issue.extractLoop]
    rw [if_neg (fun hs => h.1 hs.symm)]
    exact ih _ h.2

/-- List-append lemma for claim C2: a run of walkDirList in which every entry
of the first part returns nil continues into the remaining entries from the
state the first part produced. -/
theorem walkDirList_of_runListOk (fn : tag.WalkFn) (dirPath : String)
    (tail : List tag.FSEntry) :
    ∀ (es : List tag.FSEntry) (st st' : tag.WalkState),
      tag.runListOk fn dirPath st es = some st' →
      tag.walkDirList fn st dirPath (es ++ tail) = tag.walkDirList fn st' dirPath tail := by
  intro es
  induction es with
  | nil =>
    intro st st' h
    simp only [tag.runListOk, Option.some.injEq] at h
    subst h
    simp
  | cons e rest ih =>
    intro st st' h
    simp only [tag.runListOk] at h
    rcases hw : tag.walkDirEntry fn st (tag.childPath dirPath e.entryName) e with ⟨stm, r⟩
    rw [hw] at h
    match r with
    | none =>
      simp only at h
      rw [List.cons_append]
      simp only [tag.walkDirList, hw]
      exact ih stm st' h
    | some .skipDir => simp at h
    | some (.fail err) => simp at h

/-- Branch lemma for claim C10: extractAfterPrefix reports found = false when
the annotation token occurs in no field. -/
theorem extractAfterPrefix_not_found (fields : List String) ( annotation pre : String)
    (h : annotation ∉ fields) :
    (issue.extractAfterPrefix fields annotation pre).2 = false := by
  unfold issue.extractAfterPrefix
  split
  · rfl
  · exact extractLoop_not_found annotation pre fields fields h

/-- Branch lemma for claim C10: extractBeforeSuffix reports found = false when
the annotation token occurs in no field; dropping the final delimiter field
cannot create an occurrence. -/
theorem extractBeforeSuffix_not_found (fields : List String) ( annotation pre : String)
    (h : annotation ∉ fields) :
    (issue.extractBeforeSuffix fields annotation pre).2 = false := by
  unfold issue.extractBeforeSuffix
  split
  · rfl
  · apply extractAfterPrefix_not_found
    split
    · exact fun hm => h ((List.dropLast_prefix fields).subset hm)
    · exact h

/-- Claim C1 counterexample: a lexer.Comment with empty Title and non-empty
Source is judged valid by Validate, so validity is not equivalent to title
and source both being non-empty. -/
theorem c1_counterexample :
    ¬ (lexer.Comment.Validate { Source := [65] } = true ↔
        0 < ({ Source := [65] } : lexer.Comment).Title.length ∧
        0 < ({ Source := [65] } : lexer.Comment).Source.length) := by
  decide

/-- Claim C1 (amended): Validate returns true iff the source content is
non-empty; the title is not examined, so a Comment with empty title is kept
whenever its source is non-empty. -/
theorem c1_validate_source_only (c : lexer.Comment) :
    c.Validate = true ↔ 0 < c.Source.length := by
  simp [lexer.Comment.Validate]

/-- Claim C2 counterexample: in the c2 scenario the open of file r/b fails
after file r/a scanned one tag; Walk returns the error together with a
non-empty tag sequence, refuting the claim that the returned tag sequence is
empty when a per-file step fails. -/
theorem c2_counterexample :
    (tag.Walk ⟨"r", c2Tree, c2Env, []⟩).2.2 = some "boom" ∧
    (tag.Walk ⟨"r", c2Tree, c2Env, []⟩).1 ≠ [] := by
  decide

/-- Claim C2 (amended): when a per-file step fails, Walk returns that error,
and the returned tag sequence is the one aggregated up to the failing
callback: partial results are returned to the caller alongside the error, not
discarded. -/
theorem c2_error_and_partial_tags (env : tag.WalkEnv) (ps : List tag.GitIgnorePattern)
    (root rootName : String) (es1 : List tag.FSEntry) (bad : tag.FSEntry)
    (es2 : List tag.FSEntry) (st1 st2 : tag.WalkState) (e : tag.Error)
    (hgit : containsSubstring rootName ".git" = false)
    (hval : tag.validatePath root ps = true)
    (h1 : tag.runListOk (tag.walkCallback env ps) root {} es1 = some st1)
    (h2 : tag.walkDirEntry (tag.walkCallback env ps) st1
        (tag.childPath root bad.entryName) bad = (st2, some (.fail e))) :
    tag.Walk ⟨root, .dir rootName (es1 ++ bad :: es2), env, ps⟩ =
      (st2.tags, st2.opened, some e) := by
  have hcb : tag.walkCallback env ps {} root ⟨rootName, true⟩ none = ({}, .ok) := by
    simp [tag.walkCallback, hgit, hval]
  have hlist :=
    walkDirList_of_runListOk (tag.walkCallback env ps) root (bad :: es2) es1 {} st1 h1
  simp only [tag.Walk, tag.walkDirEntry, hcb]
  rw [hlist]
  simp only [tag.walkDirList, h2]

/-- Claim C2 witness: the amended theorem applied to the c2 scenario. -/
theorem c2_witness :
    tag.Walk ⟨"r", .dir "r" ([tag.FSEntry.file "a"] ++ .file "b" :: [.file "c"]), c2Env, []⟩ =
      (({ tags := [{ title := "refactor" }], opened := ["r/a", "r/b"] } : tag.WalkState).tags,
        ({ tags := [{ title := "refactor" }], opened := ["r/a", "r/b"] } : tag.WalkState).opened,
        some "boom") :=
  c2_error_and_partial_tags c2Env [] "r" "r" [.file "a"] (.file "b") [.file "c"]
    { tags := [{ title := "refactor" }], opened := ["r/a"] }
    { tags := [{ title := "refactor" }], opened := ["r/a", "r/b"] }
    "boom" (by decide) (by decide) (by decide) (by decide)

/-- Claim C3 counterexample: the Walk callback, invoked for a directory entry
with a non-nil traversal error, returns nil and drops the error, so a failure
to list a directory is silently skipped instead of aborting the walk. -/
theorem c3_counterexample :
    tag.walkCallback {} [] {} "r/sub" ⟨"sub", true⟩ (some "permission denied") =
      ({}, tag.WalkAction.ok) := by
  decide

/-- Claim C3 (amended): for every directory entry the Walk callback leaves
the state unchanged and returns SkipDir or nil regardless of the traversal
error passed in: a directory-listing failure is dropped, never propagated. -/
theorem c3_dir_error_dropped (env : tag.WalkEnv) (ps : List tag.GitIgnorePattern)
    (st : tag.WalkState) (path : String) (d : tag.DirEntry) (wErr : Option tag.Error)
    (hdir : d.isDir = true) :
    (tag.walkCallback env ps st path d wErr).1 = st ∧
    ((tag.walkCallback env ps st path d wErr).2 = tag.WalkAction.ok ∨
      (tag.walkCallback env ps st path d wErr).2 = tag.WalkAction.skipDir) := by
  cases hc : containsSubstring d.name ".git" || !(tag.validatePath path ps) <;>
    simp [tag.walkCallback, hdir, hc]

/-- Claim C3 witness: the amended theorem applied to a concrete directory
entry carrying a traversal error. -/
theorem c3_witness :
    (tag.walkCallback {} [] {} "q/d" ⟨"d", true⟩ (some "e")).1 = ({} : tag.WalkState) ∧
    ((tag.walkCallback {} [] {} "q/d" ⟨"d", true⟩ (some "e")).2 = tag.WalkAction.ok ∨
      (tag.walkCallback {} [] {} "q/d" ⟨"d", true⟩ (some "e")).2 = tag.WalkAction.skipDir) :=
  c3_dir_error_dropped {} [] {} "q/d" ⟨"d", true⟩ (some "e") (by decide)

/-- Claim C4 counterexample: the directory name ".github" merely contains
".git" as a substring, yet the Walk callback prunes it, refuting the claim
that only the version-control directory itself is pruned by name. -/
theorem c4_counterexample :
    containsSubstring ".github" ".git" = true ∧
    tag.walkCallback {} [] {} "proj/.github" ⟨".github", true⟩ none =
      ({}, tag.WalkAction.skipDir) := by
  decide

/-- Claim C4 (amended): a directory entry is pruned exactly when its name
contains ".git" as a substring (strings.Contains) or its path matches an
ignore pattern; so ".github" is pruned too, while a directory whose name does
not contain ".git" and matches no pattern is descended into. -/
theorem c4_prune_by_substring (env : tag.WalkEnv) (ps : List tag.GitIgnorePattern)
    (st : tag.WalkState) (path : String) (d : tag.DirEntry) (wErr : Option tag.Error)
    (hdir : d.isDir = true) :
    tag.walkCallback env ps st path d wErr =
      (st, if containsSubstring d.name ".git" || !(tag.validatePath path ps)
        then tag.WalkAction.skipDir else tag.WalkAction.ok) := by
  cases hc : containsSubstring d.name ".git" || !(tag.validatePath path ps) <;>
    simp [tag.walkCallback, hdir, hc]

/-- Claim C4 witness: the amended theorem applied to an ordinary source
directory, which is descended into. -/
theorem c4_witness :
    tag.walkCallback {} [] {} "proj/src" ⟨"src", true⟩ none =
      (({} : tag.WalkState),
        if containsSubstring (tag.DirEntry.mk "src" true).name ".git" ||
            !(tag.validatePath "proj/src" [])
          then tag.WalkAction.skipDir else tag.WalkAction.ok) :=
  c4_prune_by_substring {} [] {} "proj/src" ⟨"src", true⟩ none (by decide)

/-- Claim C5: with C-style syntax and fresh per-file state, a line that both
opens and closes a block classifies MULTI_START with active prefix "/*"
(start takes precedence over end for the same line), and on the line
"/* @TODO one-liner */" with token "@TODO" extraction returns content
"one-liner */" with found = true: the trailing end delimiter stays because
end-stripping applies only when the line type is MULTI_END. -/
theorem c5_multi_start_tie_break (line : String)
    (hstart : hasPrefix (trimLeftSpace line) "/*" = true)
    (hend : hasSuffix (trimLeftSpace line) "*/" = true) :
    (issue.SetLineTypeAndPrefix (issue.CommentPrefixes ".c") line).CurrentLineType =
        issue.LINE_TYPE_MULTI_START ∧
    (issue.SetLineTypeAndPrefix (issue.CommentPrefixes ".c") line).CurrentPrefix = "/*" ∧
    issue.ExtractCommentContent (issue.CommentPrefixes ".c") "/* @TODO one-liner */" "@TODO" =
      ({ issue.CommentPrefixes ".c" with
          CurrentLineType := issue.LINE_TYPE_MULTI_START, CurrentPrefix := "/*" },
        "one-liner */", true) := by
  have hC : issue.CommentPrefixes ".c" =
      { SingleLinePrefix := ["//"], MultiLineStartPrefix := ["/*"],
        MultiLineEndPrefix := ["*/"], CurrentPrefix := "", CurrentLineType := "" } := by
    decide
  have hnotss : hasPrefix (trimLeftSpace line) "//" = false := by
    have h2 : (("/*" : String).data).isPrefixOf (trimLeftSpace line).data = true := hstart
    exact isPrefixOf_slash_star_not_slash_slash h2
  have hmain : issue.SetLineTypeAndPrefix (issue.CommentPrefixes ".c") line =
      { issue.CommentPrefixes ".c" with
        CurrentLineType := issue.LINE_TYPE_MULTI_START, CurrentPrefix := "/*" } := by
    rw [hC]
    simp [issue.SetLineTypeAndPrefix, List.find?, hnotss, hstart]
  exact ⟨by rw [hmain], by rw [hmain], by decide⟩

/-- Claim C5 witness: the theorem applied to the line "/* x */". -/
theorem c5_witness :
    (issue.SetLineTypeAndPrefix (issue.CommentPrefixes ".c") "/* x */").CurrentLineType =
        issue.LINE_TYPE_MULTI_START ∧
    (issue.SetLineTypeAndPrefix (issue.CommentPrefixes ".c") "/* x */").CurrentPrefix = "/*" ∧
    issue.ExtractCommentContent (issue.CommentPrefixes ".c") "/* @TODO one-liner */" "@TODO" =
      ({ issue.CommentPrefixes ".c" with
          CurrentLineType := issue.LINE_TYPE_MULTI_START, CurrentPrefix := "/*" },
        "one-liner */", true) :=
  c5_multi_start_tie_break "/* x */" (by decide) (by decide)

/-- Claim C6: feeding the two C-style lines in order, the first classifies
MULTI_START and extracts ("refactor", true); the second classifies MULTI_END,
its final field equal to the active end prefix "*/" is dropped before
searching, and it extracts ("this function later", false). -/
theorem c6_two_line_block :
    issue.ExtractCommentContent (issue.CommentPrefixes ".c") "/* @TODO refactor" "@TODO" =
      ({ issue.CommentPrefixes ".c" with
          CurrentLineType := issue.LINE_TYPE_MULTI_START, CurrentPrefix := "/*" },
        "refactor", true) ∧
    issue.ExtractCommentContent
        { issue.CommentPrefixes ".c" with
          CurrentLineType := issue.LINE_TYPE_MULTI_START, CurrentPrefix := "/*" }
        "   this function later */" "@TODO" =
      ({ issue.CommentPrefixes ".c" with
          CurrentLineType := issue.LINE_TYPE_MULTI_END, CurrentPrefix := "*/" },
        "this function later", false) ∧
    (goFields "   this function later */").getLast? = some "*/" ∧
    issue.extractBeforeSuffix (goFields "   this function later */") "@TODO" "*/" =
      issue.extractAfterPrefix ["this", "function", "later"] "@TODO" "*/" := by
  decide

/-- Claim C7: when a directory entry's path matches some ignore pattern the
whole subtree is pruned: the walk of that entry returns at once with tags and
opened log unchanged, so no descendant file is ever opened and the descend
count for the subtree is zero; and a file entry whose path matches some
ignore pattern is skipped without being opened. -/
theorem c7_ignored_paths_pruned (env : tag.WalkEnv) (ps : List tag.GitIgnorePattern)
    (st : tag.WalkState) (path : String) (hmatch : tag.validatePath path ps = false) :
    (∀ (n : String) (es : List tag.FSEntry),
      tag.walkDirEntry (tag.walkCallback env ps) st path (.dir n es) = (st, none)) ∧
    (∀ (n : String),
      tag.walkDirEntry (tag.walkCallback env ps) st path (.file n) = (st, none)) := by
  constructor
  · intro n es
    simp [tag.walkDirEntry, tag.walkCallback, hmatch]
  · intro n
    simp [tag.walkDirEntry, tag.walkCallback, hmatch]

/-- Claim C7 witness: a pattern matching proj/node_modules prunes that
directory entry whole and skips a file at that path without opening it. -/
theorem c7_witness :
    tag.walkDirEntry (tag.walkCallback {} c7Patterns) {} "proj/node_modules"
        (.dir "node_modules" [.file "index.js"]) = ({}, none) ∧
    tag.walkDirEntry (tag.walkCallback {} c7Patterns) {} "proj/node_modules"
        (.file "node_modules") = ({}, none) :=
  ⟨(c7_ignored_paths_pruned {} c7Patterns {} "proj/node_modules" (by decide)).1
      "node_modules" [.file "index.js"],
    (c7_ignored_paths_pruned {} c7Patterns {} "proj/node_modules" (by decide)).2
      "node_modules"⟩

/-- Claim C8: with a non-empty active prefix, a line whose trimmed text
starts with that prefix or ends with it is treated as a continuation of the
current block: SetLineTypeAndPrefix returns the classifier state unchanged,
so CurrentLineType and CurrentPrefix are both preserved. -/
theorem c8_continuation_keeps_state (c : issue.Comment) (line : String)
    (hne : c.CurrentPrefix ≠ "")
    (hmatch : hasPrefix (trimLeftSpace line) c.CurrentPrefix = true ∨
      hasSuffix (trimLeftSpace line) c.CurrentPrefix = true) :
    issue.SetLineTypeAndPrefix c line = c := by
  simp only [issue.SetLineTypeAndPrefix]
  rw [if_pos ⟨hne, hmatch⟩]

/-- Claim C8 witness: the theorem applied to a box-comment continuation line
while a C-style block is open. -/
theorem c8_witness :
    issue.SetLineTypeAndPrefix
        { SingleLinePrefix := ["//"], MultiLineStartPrefix := ["/*"],
          MultiLineEndPrefix := ["*/"], CurrentPrefix := "/*",
          CurrentLineType := issue.LINE_TYPE_MULTI_START } "/* box line" =
      { SingleLinePrefix := ["//"], MultiLineStartPrefix := ["/*"],
        MultiLineEndPrefix := ["*/"], CurrentPrefix := "/*",
        CurrentLineType := issue.LINE_TYPE_MULTI_START } :=
  c8_continuation_keeps_state _ "/* box line" (by decide) (Or.inl (by decide))

/-- Claim C9: every file extension that is not one of the explicitly mapped
C-style family, Python, or Markdown extensions resolves to the default
syntax, in which the single marker "#" is the single-line prefix, the
multi-line start prefix and the multi-line end prefix at once. -/
theorem c9_default_syntax (ext : String) (h : ext ∉ mappedExtensions) :
    issue.CommentPrefixes ext =
      { SingleLinePrefix := ["#"], MultiLineStartPrefix := ["#"],
        MultiLineEndPrefix := ["#"], CurrentPrefix := "", CurrentLineType := "" } := by
  simp only [mappedExtensions, List.mem_cons, List.not_mem_nil, or_false, not_or] at h
  obtain ⟨h1, h2, h3, h4, h5, h6, h7, h8, h9, h10, h11, h12, h13, h14, h15, h16, h17⟩ := h
  have hd : issue.CommentSymbols "default" =
      { SingleLinePrefix := ["#"], MultiLineStartPrefix := ["#"],
        MultiLineEndPrefix := ["#"], CurrentPrefix := "", CurrentLineType := "" } := by
    decide
  simp [issue.CommentPrefixes, issue.fileExtC, issue.fileExtCpp, issue.fileExtJava,
    issue.fileExtJavaScript, issue.fileExtJsx, issue.fileExtTypeScript, issue.fileExtTsx,
    issue.fileExtCS, issue.fileExtGo, issue.fileExtPhp, issue.fileExtSwift,
    issue.fileExtKotlin, issue.fileExtRust, issue.fileExtObjC, issue.fileExtScala,
    issue.fileExtPython, issue.fileExtMarkdown, h1, h2, h3, h4, h5, h6, h7, h8, h9,
    h10, h11, h12, h13, h14, h15, h16, h17, hd]

/-- Claim C9 witness: the theorem applied to the unmapped extension ".txt". -/
theorem c9_witness :
    issue.CommentPrefixes ".txt" =
      { SingleLinePrefix := ["#"], MultiLineStartPrefix := ["#"],
        MultiLineEndPrefix := ["#"], CurrentPrefix := "", CurrentLineType := "" } :=
  c9_default_syntax ".txt" (by decide)

/-- Claim C10: when the annotation token occurs in no whitespace-delimited
field of the line, ExtractCommentContent reports found = false, whatever the
classifier state; in particular a token fused to the comment prefix is not
recognized as an annotation. -/
theorem c10_token_must_be_field (c : issue.Comment) (line : String) ( annotation : String)
    (h : annotation ∉ goFields line) :
    (issue.ExtractCommentContent c line annotation).2.2 = false := by
  simp only [issue.ExtractCommentContent]
  split
  · exact extractBeforeSuffix_not_found _ _ _ h
  · exact extractAfterPrefix_not_found _ _ _ h

/-- Claim C10 witness: on the line "//@TODO fix bug" the token "@TODO" is
fused to the comment prefix, so with C-style syntax it is not recognized. -/
theorem c10_witness :
    (issue.ExtractCommentContent (issue.CommentPrefixes ".c") "//@TODO fix bug" "@TODO").2.2 =
      false :=
  c10_token_must_be_field (issue.CommentPrefixes ".c") "//@TODO fix bug" "@TODO" (by decide)
